import Mathlib

/-!
Shallow embedding of `scripts/vocabs_csv2jsonl/vocabs_csv2jsonl.py`:
a converter of controlled-vocabulary CSV tables to JSON/JSONL documents.

Python strings are modelled as Lean `String`, with the string methods the
script uses implemented on `String.data` (`List Char`).  Python `dict`s are
modelled as association lists with insertion-order update semantics
(`dictInsert`, `dictOfPairs`) and last-write-wins lookup (`pyDictGet`).
Python's ASCII-range `str.strip`, `str.lower`, `in`, `startswith`,
`rstrip`, `split(sep)[-1]` and single-char `replace` are embedded below.
(The Unicode corner cases in which Python's whitespace/lowercase tables
are larger than Lean's ASCII ones are outside the inputs considered here.)
-/

namespace VocabsCsv

/-- Character-list core of Python `str.strip()` (whitespace on both ends). -/
def trimCharList (l : List Char) : List Char :=
  ((l.dropWhile Char.isWhitespace).reverse.dropWhile Char.isWhitespace).reverse

/-- Embedding of Python `s.strip()`. -/
def pyStrip (s : String) : String :=
  ⟨trimCharList s.data⟩

/-- Embedding of Python `s.rstrip(cs)`: remove all trailing characters
belonging to `cs`. -/
def pyRstrip (cs : List Char) (s : String) : String :=
  ⟨(s.data.reverse.dropWhile (fun c => c ∈ cs)).reverse⟩

/-- Embedding of Python `s.split(sep)[-1]`: the suffix of `s` after the
last occurrence of the (single-character) separator, or all of `s` if the
separator does not occur. -/
def afterLast (sep : Char) (s : String) : String :=
  ⟨(s.data.reverse.takeWhile (fun c => c ≠ sep)).reverse⟩

/-- Embedding of Python `s.replace(a, b)` for single characters `a`, `b`. -/
def pyReplaceChar (a b : Char) (s : String) : String :=
  ⟨s.data.map (fun c => if c = a then b else c)⟩

/-- Embedding of Python `s.lower()` (ASCII range). -/
def pyLower (s : String) : String :=
  ⟨s.data.map Char.toLower⟩

/-- Boolean infix test on lists: `p` occurs as a contiguous sublist. -/
def listContainsSub (p : List Char) : List Char → Bool
  | [] => p.isEmpty
  | c :: cs => p.isPrefixOf (c :: cs) || listContainsSub p cs

/-- Embedding of Python `pat in s` (substring containment). -/
def containsSub (pat s : String) : Bool :=
  listContainsSub pat.data s.data

/-- Embedding of Python `s.lstrip().startswith("#")`. -/
def startsWithHashAfterLstrip (s : String) : Bool :=
  match s.data.dropWhile Char.isWhitespace with
  | c :: _ => c = '#'
  | [] => false

/-- Python-`dict` assignment `d[k] = v` on an association list: update the
value in place if the key is present, else append the binding. -/
def dictInsert {κ α : Type} [DecidableEq κ] (d : List (κ × α)) (k : κ) (v : α) :
    List (κ × α) :=
  if d.any (fun p => p.1 = k) then
    d.map (fun p => if p.1 = k then (k, v) else p)
  else
    d ++ [(k, v)]

/-- Python `dict(pairs)` / dict comprehension: successive `dictInsert`s. -/
def dictOfPairs {κ α : Type} [DecidableEq κ] (ps : List (κ × α)) : List (κ × α) :=
  ps.foldl (fun d p => dictInsert d p.1 p.2) []

/-- Python `d.get(k)`: last-write-wins lookup on an association list. -/
def pyDictGet {κ α : Type} [DecidableEq κ] (d : List (κ × α)) (k : κ) : Option α :=
  d.foldl (fun acc p => if p.1 = k then some p.2 else acc) none

/-- Python `a or b` where `a : Option String` comes from `d.get(k)` and the
whole expression must produce a string: `None` and `""` are falsy. -/
def orKey (a : Option String) (b : String) : String :=
  match a with
  | none => b
  | some s => if s = "" then b else s

/-- Embedding of `slug_label_from_uri` (vocabs_csv2jsonl.py, lines 28-33):

    if not uri: return ""
    u = uri.strip().rstrip("/#")
    last = u.split("/")[-1].split("#")[-1]
    return last.replace("_", " ").replace("-", " ").strip()
-/
def slug_label_from_uri (uri : String) : String :=
  if uri = "" then ""
  else
    let u := pyRstrip ['/', '#'] (pyStrip uri)
    let last := afterLast '#' (afterLast '/' u)
    pyStrip (pyReplaceChar '-' ' ' (pyReplaceChar '_' ' ' last))

/-! ## CSV row parsing

`read_csv_rows_from_path` / `read_csv_rows_from_url` filter comment and
blank lines and hand the remaining lines to `_parse_csv_lines`, which uses
`csv.DictReader` (header path) or `csv.reader` (no-header path).  A cell
value in a `DictReader` row is either a parsed string, Python `None` (the
`restval` filling missing trailing fields), or the list of extra cells
stored under the `restkey` key `None` when a row is longer than the header.
-/

/-- A cell value of a parsed row: a string cell, Python `None` (the
`DictReader` restval), or the `restkey` list of extra cells. -/
inductive RVal : Type where
  | str (s : String)
  | null
  | rest (vs : List String)
deriving DecidableEq, Repr

/-- A parsed row: a Python dict from column name (`none` is the
`DictReader` restkey `None`) to cell value, as an association list with
unique keys in insertion order. -/
abbrev Row : Type := List (Option String × RVal)

/-- States of the csv field scanner (Python `csv` default dialect). -/
inductive CsvSt : Type where
  | fstart
  | infield
  | quoted
  | afterq
deriving DecidableEq

/-- One-line field scanner for the Python `csv` default dialect
(delimiter `,`, quotechar `"`, doublequote on, non-strict): a quote at
field start opens a quoted section, `""` inside it is a literal quote, and
characters after a closing quote are appended to the field. -/
def csvGo : List Char → CsvSt → List Char → List String → List String
  | [], _, fld, acc => acc ++ [String.mk fld]
  | c :: cs, .fstart, fld, acc =>
      if c = ',' then csvGo cs .fstart [] (acc ++ [String.mk fld])
      else if c = '"' then csvGo cs .quoted fld acc
      else csvGo cs .infield (fld ++ [c]) acc
  | c :: cs, .infield, fld, acc =>
      if c = ',' then csvGo cs .fstart [] (acc ++ [String.mk fld])
      else csvGo cs .infield (fld ++ [c]) acc
  | c :: cs, .quoted, fld, acc =>
      if c = '"' then csvGo cs .afterq fld acc
      else csvGo cs .quoted (fld ++ [c]) acc
  | c :: cs, .afterq, fld, acc =>
      if c = '"' then csvGo cs .quoted (fld ++ ['"']) acc
      else if c = ',' then csvGo cs .fstart [] (acc ++ [String.mk fld])
      else csvGo cs .infield (fld ++ [c]) acc

/-- Parse one CSV line into its cells (Python `csv` record for one line;
multi-line quoted fields are outside the spec's scope). -/
def splitFields (s : String) : List String :=
  csvGo s.data .fstart [] []

/-- Embedding of Python `csv.reader(lines)`: one record per line, except
that empty lines yield no record (`DictReader` additionally skips the
empty records, which cannot occur after line filtering). -/
def csvReader (lines : List String) : List (List String) :=
  lines.filterMap (fun l => if l = "" then none else some (splitFields l))

/-- Embedding of `csv.DictReader`'s row construction: zip the fieldnames
with the cells into a dict; extra cells go to the restkey `None` as a
list; missing trailing fields are filled with the restval `None`. -/
def dictRowOf (fieldnames : List String) (r : List String) : Row :=
  let d : Row := dictOfPairs ((fieldnames.zip r).map
    (fun p => ((some p.1 : Option String), RVal.str p.2)))
  if fieldnames.length < r.length then
    dictInsert d none (RVal.rest (r.drop fieldnames.length))
  else
    (fieldnames.drop r.length).foldl (fun d k => dictInsert d (some k) RVal.null) d

/-- Header-detection test of `_parse_csv_lines` (lines 62-63):
`has_header = not ("://" in lines[0].strip())`. -/
def hasHeader (first : String) : Bool :=
  ! containsSub "://" (pyStrip first)

/-- Header path of `_parse_csv_lines`: `list(csv.DictReader(lines))` —
the first record is the header, each further record becomes a dict row. -/
def headerPath (lines : List String) : List Row :=
  match csvReader lines with
  | [] => []
  | hdr :: data => data.map (dictRowOf hdr)

/-- No-header path of `_parse_csv_lines` (lines 67-77): parse every line
as data, pad to the maximum field count, zip with synthesized names
`col0 … col(max_len-1)`. -/
def noHeaderPath (lines : List String) : List Row :=
  let rows := csvReader lines
  if rows.isEmpty then []
  else
    let max_len := (rows.map List.length).foldl Nat.max 0
    let headers := (List.range max_len).map (fun i => "col" ++ toString i)
    rows.map (fun r =>
      let r_padded := r ++ List.replicate (max_len - r.length) ""
      dictOfPairs ((headers.zip r_padded).map
        (fun p => ((some p.1 : Option String), RVal.str p.2))))

/-- Embedding of `_parse_csv_lines` (lines 59-77). -/
def parse_csv_lines (lines : List String) : List Row :=
  match lines with
  | [] => []
  | first :: _ =>
      if hasHeader first then headerPath lines else noHeaderPath lines

/-- The line-skipping test shared by both readers (lines 38-40, 53-55):
`line.lstrip().startswith("#") or not line.strip()`. -/
def skipLine (l : String) : Bool :=
  startsWithHashAfterLstrip l || pyStrip l = ""

/-- The comment/blank Line Filter of `read_csv_rows_from_path` /
`read_csv_rows_from_url` (lines are modelled without their terminators). -/
def lineFilter (ls : List String) : List String :=
  ls.filter (fun l => ! skipLine l)

/-- The composed Row Parser: filter lines, then parse
(`read_csv_rows_from_url` minus the network fetch). -/
def read_csv_rows (ls : List String) : List Row :=
  parse_csv_lines (lineFilter ls)

example : splitFields "a, b" = ["a", " b"] := by decide
example : splitFields "a,\"b,c\",d" = ["a", "b,c", "d"] := by decide
example : splitFields "a," = ["a", ""] := by decide
example : lineFilter ["# c", "  ", "a,b", ""] = ["a,b"] := by decide
example : read_csv_rows ["uri,label", "a, b"] =
    [[(some "uri", RVal.str "a"), (some "label", RVal.str " b")]] := by decide
example : read_csv_rows ["uri,label", "a"] =
    [[(some "uri", RVal.str "a"), (some "label", RVal.null)]] := by decide
example : read_csv_rows ["uri,label", "x,y,z"] =
    [[(some "uri", RVal.str "x"), (some "label", RVal.str "y"),
      (none, RVal.rest ["z"])]] := by decide
example : read_csv_rows ["http://a/x,L", "http://b/y"] =
    [[(some "col0", RVal.str "http://a/x"), (some "col1", RVal.str "L")],
     [(some "col0", RVal.str "http://b/y"), (some "col1", RVal.str "")]] := by decide

/-! ## Entry normalization

`normalize_vocab_entry(vocab_name, row)` lower-cases and strips the keys,
strips truthy values (`None` and `""` become `""`), resolves each semantic
field through a prioritized candidate list with Python `or`, and builds
the output dict.  Its input here is a row with string keys and
string-or-`None` values: rows carrying a restkey entry make the Python
function raise (`None.lower()` / `list.strip()`), which the pipeline model
below accounts for via `rowClean`. -/

/-- A canonical output entry: one field per JSON key the script can emit,
`none` meaning the key is absent from the dict. -/
structure Entry : Type where
  uri : Option String := none
  code : Option String := none
  url : Option String := none
  label : String := ""
  equivalentUri : Option String := none
deriving DecidableEq, Repr

/-- The normalized-keys dict of `normalize_vocab_entry` (lines 82, 101):
`{k.lower().strip(): (v.strip() if v else "") for k, v in row.items()}`. -/
def normKeys (row : List (String × Option String)) : List (String × String) :=
  dictOfPairs (row.map (fun p =>
    (pyStrip (pyLower p.1),
     match p.2 with
     | none => ""
     | some v => if v = "" then "" else pyStrip v)))

/-- Resolution chain `keys.get(a) or keys.get(b) or keys.get(c, "")`. -/
def resolve3 (keys : List (String × String)) (a b c : String) : String :=
  orKey (pyDictGet keys a) (orKey (pyDictGet keys b) ((pyDictGet keys c).getD ""))

/-- Licenses kind, resolved `authority` (line 83). -/
def licAuthority (row : List (String × Option String)) : String :=
  resolve3 (normKeys row) "authority_uri" "authority" "col0"

/-- Licenses kind, resolved `code` (line 84). -/
def licCode (row : List (String × Option String)) : String :=
  resolve3 (normKeys row) "code" "id" "col1"

/-- Licenses kind, resolved `url` (line 85). -/
def licUrl (row : List (String × Option String)) : String :=
  resolve3 (normKeys row) "url" "license_url" "col2"

/-- uri_label kind, resolved `uri` (line 102). -/
def ulUri (row : List (String × Option String)) : String :=
  resolve3 (normKeys row) "uri" "url" "col0"

/-- uri_label kind, resolved `label` (line 103). -/
def ulLabel (row : List (String × Option String)) : String :=
  resolve3 (normKeys row) "label" "name" "col1"

/-- uri_label kind, resolved `equivalent` (line 104). -/
def ulEquiv (row : List (String × Option String)) : String :=
  resolve3 (normKeys row) "equivalent_uri" "equivalent" "col2"

/-- Embedding of `normalize_vocab_entry` (lines 79-113).  `none` is
Python `None` (row dropped). -/
def normalize_vocab_entry (vocab_name : String) (row : List (String × Option String)) :
    Option Entry :=
  if vocab_name = "licenses" then
    let authority := licAuthority row
    let code := licCode row
    let url := licUrl row
    if url = "" ∧ code = "" ∧ authority = "" then none
    else some
      { uri := if authority ≠ "" then some authority else none
        code := if code ≠ "" then some code else none
        url := if url ≠ "" then some url else none
        label :=
          if code ≠ "" then code
          else
            let s := slug_label_from_uri (if authority ≠ "" then authority else url)
            if s ≠ "" then s else "Unknown" }
  else
    let uri := ulUri row
    let label := ulLabel row
    let equiv := ulEquiv row
    if uri = "" then none
    else some
      { uri := some uri
        label := if label ≠ "" then label else slug_label_from_uri uri
        equivalentUri := if equiv ≠ "" then some equiv else none }

/-- Restore a parsed row to the string-keyed form `normalize_vocab_entry`
consumes; `none` when the row carries a restkey entry or a rest-list
value, on which the Python function raises. -/
def rowClean (r : Row) : Option (List (String × Option String)) :=
  r.mapM (fun p =>
    match p with
    | (some k, RVal.str s) => some (k, some s)
    | (some k, RVal.null) => some (k, none)
    | _ => none)

/-! ## Vocabulary conversion -/

/-- The `VOCABS` table (lines 19-26): vocabulary name to output `type`. -/
def VOCABS : List (String × String) :=
  [("access_rights", "uri_label"), ("file_types", "uri_label"),
   ("licenses", "licenses"), ("machine_readable", "uri_label"),
   ("media_types", "uri_label"), ("non_proprietary", "uri_label")]

/-- Outcome of the source-reading step inside `convert_vocab`'s
`try` block: the filtered-input lines, or the `RuntimeError` raised by
`read_csv_rows_from_url` on fetch failure. -/
inductive FetchResult : Type where
  | ok (rawLines : List String)
  | err
deriving DecidableEq

/-- The written output document: the metadata envelope (minus the
wall-clock `generated` timestamp) plus the serialized entries.  Both
formats serialize every entry of `entries` exactly once, in order
(`jsonl`: one line per entry after the metadata line; `json`: the
embedded `entries` array). -/
structure OutputDoc : Type where
  source : String
  format : String
  vocabType : String
  name : String
  count : Nat
  entries : List Entry
deriving DecidableEq

/-- Embedding of `convert_vocab` (lines 115-159), minus timestamping and
file I/O.  Result: `none` if the Python call raises (unknown vocabulary
name: `KeyError` on `VOCABS[name]`; a row with restkey: `AttributeError`
in the loop) — nothing written; `some (n, none)` when the source read
fails with `RuntimeError` — warning printed, `0` returned, nothing
written; `some (n, some doc)` when `doc` is written and `n` returned. -/
def convert_vocab (name source_desc : String) (src : FetchResult)
    (output_format : String) : Option (Nat × Option OutputDoc) :=
  match pyDictGet VOCABS name with
  | none => none
  | some vtype =>
    match src with
    | .err => some (0, none)
    | .ok rawLines =>
      match (read_csv_rows rawLines).mapM rowClean with
      | none => none
      | some rows =>
        let entries := rows.filterMap (normalize_vocab_entry name)
        some (entries.length,
          some { source := source_desc, format := output_format,
                 vocabType := vtype, name := name,
                 count := entries.length, entries := entries })

example : normalize_vocab_entry "licenses" [("code", some "MIT")] =
    some { code := some "MIT", label := "MIT" } := by decide
example : normalize_vocab_entry "licenses" [("authority", some ""), ("code", some ""), ("url", some "")] = none := by decide
example : normalize_vocab_entry "access_rights" [("uri", some "/")] =
    some { uri := some "/", label := "" } := by decide
example : normalize_vocab_entry "access_rights"
    [("uri", some "http://example.org/Foo"), ("label", some "My Label")] =
    some { uri := some "http://example.org/Foo", label := "My Label" } := by decide
example : convert_vocab "licenses" "docs/vocabularies/licenses.csv" (.ok ["# x", "  "]) "jsonl" =
    some (0, some { source := "docs/vocabularies/licenses.csv", format := "jsonl",
                    vocabType := "licenses", name := "licenses",
                    count := 0, entries := [] }) := by decide

example : slug_label_from_uri "http://example.org/some_thing/" = "some thing" := by decide
example : slug_label_from_uri "http://example.org/a//" = "a" := by decide
example : slug_label_from_uri "/" = "" := by decide
example : pyStrip "  a b " = "a b" := by decide
example : containsSub "://" "http://x" = true := by decide
example : containsSub "://" "uri,label" = false := by decide

/-! ## The spec's description of the label derivation

Two spec-side formulations of the URI-tail derivation, to compare with
`slug_label_from_uri`.  They differ only in the first step: the literal
one removes exactly one trailing `/` or `#`, the amended one removes all
trailing `/` and `#` characters (what `rstrip("/#")` does). -/

/-- Remove exactly one trailing `/` or `#`, if present. -/
def stripOneTrailing (s : String) : String :=
  match s.data.reverse with
  | c :: cs => if c = '/' ∨ c = '#' then ⟨cs.reverse⟩ else s
  | [] => s

/-- Substring after the last `/` or `#`, whichever occurs later. -/
def tailAfterLastSep (s : String) : String :=
  ⟨(s.data.reverse.takeWhile (fun c => c ≠ '/' ∧ c ≠ '#')).reverse⟩

/-- Replace every `_` and `-` by a space. -/
def sepsToSpaces (s : String) : String :=
  ⟨s.data.map (fun c => if c = '_' ∨ c = '-' then ' ' else c)⟩

/-- Modelled from the spec's words, read literally: "take the URI, strip
a trailing `/` or `#`, take the substring after the last `/` or `#`
(whichever occurs later), replace `_` and `-` with spaces, trim". -/
def claimLiteralDerive (uri : String) : String :=
  if uri = "" then ""
  else pyStrip (sepsToSpaces (tailAfterLastSep (stripOneTrailing (pyStrip uri))))

/-- The same derivation with the first step amended to strip ALL trailing
`/` and `#` characters. -/
def specAmendedDerive (uri : String) : String :=
  if uri = "" then ""
  else pyStrip (sepsToSpaces (tailAfterLastSep (pyRstrip ['/', '#'] (pyStrip uri))))

/-! ## Helper lemmas -/

theorem afterLast_afterLast (u : String) :
    afterLast '#' (afterLast '/' u) = tailAfterLastSep u := by
  have hfun : (fun a : Char => decide (decide (a ≠ '#') = true ∧ decide (a ≠ '/') = true)) =
      (fun c : Char => decide (c ≠ '/' ∧ c ≠ '#')) := by
    funext c
    rw [decide_eq_decide]
    simp only [decide_eq_true_eq]
    exact and_comm
  show String.mk _ = String.mk _
  simp only [afterLast, tailAfterLastSep, List.reverse_reverse,
    List.takeWhile_takeWhile, hfun]

theorem replace_replace_eq_sepsToSpaces (s : String) :
    pyReplaceChar '-' ' ' (pyReplaceChar '_' ' ' s) = sepsToSpaces s := by
  have hfun : ((fun c : Char => if c = '-' then ' ' else c) ∘
      (fun c : Char => if c = '_' then ' ' else c)) =
      (fun c : Char => if c = '_' ∨ c = '-' then ' ' else c) := by
    funext c
    by_cases h1 : c = '_'
    · subst h1; decide
    · by_cases h2 : c = '-'
      · subst h2; decide
      · simp [Function.comp, h1, h2]
  show String.mk _ = String.mk _
  simp only [pyReplaceChar, sepsToSpaces, List.map_map, hfun]

/-! ## C5: the URI-tail label derivation -/

/-- C5 counterexample: the claim's derivation, read as stripping exactly
one trailing `/` or `#`, disagrees with `slug_label_from_uri` (which
strips all of them, via `rstrip("/#")`) on `"http://example.org/a//"`:
the code yields `"a"`, the claimed steps yield `""`. -/
theorem c5_counterexample :
    slug_label_from_uri "http://example.org/a//" = "a" ∧
    claimLiteralDerive "http://example.org/a//" = "" ∧
    slug_label_from_uri "http://example.org/a//" ≠
      claimLiteralDerive "http://example.org/a//" := by decide

/-- C5 amended: for every URI string, `slug_label_from_uri` strips ALL
trailing `/` and `#` characters, takes the substring after the last `/`
or `#` (whichever occurs later), replaces `_` and `-` with spaces, and
trims; in particular `"http://example.org/some_thing/"` yields
`"some thing"`. -/
theorem c5_label_derivation_amended :
    (∀ uri, slug_label_from_uri uri = specAmendedDerive uri) ∧
    slug_label_from_uri "http://example.org/some_thing/" = "some thing" := by
  refine ⟨fun uri => ?_, by decide⟩
  unfold slug_label_from_uri specAmendedDerive
  by_cases h : uri = ""
  · simp [h]
  · simp only [h, if_neg]
    rw [afterLast_afterLast, replace_replace_eq_sepsToSpaces]

/-! ## C1: non-empty labels -/

/-- C1 counterexample: the uri_label branch of `normalize_vocab_entry`
emits an entry with an EMPTY label for the row `{"uri": "/"}` — the row
carries no label and the URI-tail derivation of `"/"` is empty, and
unlike the licenses branch there is no `"Unknown"` fallback. -/
theorem c1_counterexample :
    normalize_vocab_entry "access_rights" [("uri", some "/")] =
      some { uri := some "/", label := "" } ∧
    ({ uri := some "/", label := "" } : Entry).label = "" := by decide

/-- C1 amended: every entry emitted by `normalize_vocab_entry` for the
licenses kind has a non-empty label; an entry emitted for any other kind
has a non-empty label unless both the row's resolved label and the
URI-tail derivation of its resolved uri are empty (as for uri `"/"`). -/
theorem c1_nonempty_label_amended (name : String) (row : List (String × Option String))
    (e : Entry) (h : normalize_vocab_entry name row = some e) :
    e.label ≠ "" ∨
      (name ≠ "licenses" ∧ ulLabel row = "" ∧ slug_label_from_uri (ulUri row) = "") := by
  unfold normalize_vocab_entry at h
  by_cases hn : name = "licenses"
  · left
    rw [if_pos hn] at h
    dsimp only at h
    split at h
    · exact absurd h (by simp)
    · have he := (Option.some.injEq _ _).mp h
      subst he
      dsimp only
      by_cases hc : licCode row ≠ ""
      · rw [if_pos hc]; exact hc
      · rw [if_neg hc]
        by_cases hs : slug_label_from_uri
            (if licAuthority row ≠ "" then licAuthority row else licUrl row) ≠ ""
        · rw [if_pos hs]; exact hs
        · rw [if_neg hs]; decide
  · rw [if_neg hn] at h
    dsimp only at h
    split at h
    · exact absurd h (by simp)
    · have he := (Option.some.injEq _ _).mp h
      subst he
      dsimp only
      by_cases hl : ulLabel row ≠ ""
      · rw [if_pos hl]; exact Or.inl hl
      · rw [if_neg hl]
        by_cases hs : slug_label_from_uri (ulUri row) = ""
        · exact Or.inr ⟨hn, not_not.mp hl, hs⟩
        · exact Or.inl hs

/-- C1 amended, witness at a concrete input: the uri_label row
`{"uri": "http://x/a", "label": "L"}` emits label `"L"`, which is
non-empty. -/
theorem c1_amended_witness :
    ({ uri := some "http://x/a", label := "L" } : Entry).label ≠ "" ∨
      ("file_types" ≠ "licenses" ∧
        ulLabel [("uri", some "http://x/a"), ("label", some "L")] = "" ∧
        slug_label_from_uri (ulUri [("uri", some "http://x/a"), ("label", some "L")]) = "") :=
  c1_nonempty_label_amended "file_types" [("uri", some "http://x/a"), ("label", some "L")]
    { uri := some "http://x/a", label := "L" } (by decide)

/-! ## C6: the licenses kind -/

/-- C6: for the licenses kind, `normalize_vocab_entry` returns no entry
exactly when the resolved authority, code and url are all empty;
otherwise it returns an entry whose label is the code if non-empty, else
the URI-tail derivation of authority-or-url (authority preferred), else
`"Unknown"`, and whose `uri` (from authority), `code` and `url` fields
are present exactly when their source value is non-empty. -/
theorem c6_licenses_normalization (row : List (String × Option String)) :
    (normalize_vocab_entry "licenses" row = none ↔
      licAuthority row = "" ∧ licCode row = "" ∧ licUrl row = "") ∧
    (∀ e, normalize_vocab_entry "licenses" row = some e →
      e.uri = (if licAuthority row ≠ "" then some (licAuthority row) else none) ∧
      e.code = (if licCode row ≠ "" then some (licCode row) else none) ∧
      e.url = (if licUrl row ≠ "" then some (licUrl row) else none) ∧
      e.label = (if licCode row ≠ "" then licCode row
                 else if slug_label_from_uri
                     (if licAuthority row ≠ "" then licAuthority row else licUrl row) ≠ ""
                   then slug_label_from_uri
                     (if licAuthority row ≠ "" then licAuthority row else licUrl row)
                   else "Unknown")) := by
  unfold normalize_vocab_entry
  rw [if_pos rfl]
  dsimp only
  constructor
  · constructor
    · intro h
      split at h
      · rename_i hc; exact ⟨hc.2.2, hc.2.1, hc.1⟩
      · exact absurd h (by simp)
    · intro hc
      rw [if_pos ⟨hc.2.2, hc.2.1, hc.1⟩]
  · intro e h
    split at h
    · exact absurd h (by simp)
    · have he := (Option.some.injEq _ _).mp h
      subst he
      exact ⟨rfl, rfl, rfl, rfl⟩

/-- C6 witness: the row with only `code=MIT` yields
`{code: "MIT", label: "MIT"}`, and its label matches the resolution rule. -/
theorem c6_witness :
    normalize_vocab_entry "licenses" [("code", some "MIT")] =
      some { code := some "MIT", label := "MIT" } ∧
    ({ code := some "MIT", label := "MIT" } : Entry).label =
      (if licCode [("code", some "MIT")] ≠ "" then licCode [("code", some "MIT")]
       else if slug_label_from_uri
           (if licAuthority [("code", some "MIT")] ≠ "" then licAuthority [("code", some "MIT")]
            else licUrl [("code", some "MIT")]) ≠ ""
         then slug_label_from_uri
           (if licAuthority [("code", some "MIT")] ≠ "" then licAuthority [("code", some "MIT")]
            else licUrl [("code", some "MIT")])
         else "Unknown") :=
  ⟨by decide,
   ((c6_licenses_normalization [("code", some "MIT")]).2
     { code := some "MIT", label := "MIT" } (by decide)).2.2.2⟩

/-! ## C7: the uri_label kinds -/

/-- C7: for every non-licenses (uri_label) kind, `normalize_vocab_entry`
returns no entry exactly when the resolved uri (first non-empty of the
candidates uri, url, col0 over the lower-cased stripped keys) is empty;
otherwise the entry holds that uri, a label taken from the row or derived
from the URI tail when the row's label is empty, and an `equivalentUri`
present exactly when its resolved value is non-empty. -/
theorem c7_uri_label_normalization (name : String) (row : List (String × Option String))
    (hn : name ≠ "licenses") :
    (normalize_vocab_entry name row = none ↔ ulUri row = "") ∧
    (∀ e, normalize_vocab_entry name row = some e →
      e.uri = some (ulUri row) ∧
      e.label = (if ulLabel row ≠ "" then ulLabel row else slug_label_from_uri (ulUri row)) ∧
      e.equivalentUri = (if ulEquiv row ≠ "" then some (ulEquiv row) else none) ∧
      e.code = none ∧ e.url = none) := by
  unfold normalize_vocab_entry
  rw [if_neg hn]
  dsimp only
  constructor
  · constructor
    · intro h
      split at h
      · assumption
      · exact absurd h (by simp)
    · intro h; rw [if_pos h]
  · intro e h
    split at h
    · exact absurd h (by simp)
    · have he := (Option.some.injEq _ _).mp h
      subst he
      exact ⟨rfl, rfl, rfl, rfl, rfl⟩

/-- C7 witness (the spec's round trip): the CSV with header `uri,label`
and row `http://example.org/Foo,My Label` parses to one row, which
normalizes to `{uri: "http://example.org/Foo", label: "My Label"}`. -/
theorem c7_witness :
    read_csv_rows ["uri,label", "http://example.org/Foo,My Label"] =
      [[(some "uri", RVal.str "http://example.org/Foo"),
        (some "label", RVal.str "My Label")]] ∧
    normalize_vocab_entry "access_rights"
      [("uri", some "http://example.org/Foo"), ("label", some "My Label")] =
      some { uri := some "http://example.org/Foo", label := "My Label" } ∧
    ({ uri := some "http://example.org/Foo", label := "My Label" } : Entry).label =
      (if ulLabel [("uri", some "http://example.org/Foo"), ("label", some "My Label")] ≠ ""
       then ulLabel [("uri", some "http://example.org/Foo"), ("label", some "My Label")]
       else slug_label_from_uri
         (ulUri [("uri", some "http://example.org/Foo"), ("label", some "My Label")])) :=
  ⟨by decide, by decide,
   ((c7_uri_label_normalization "access_rights"
       [("uri", some "http://example.org/Foo"), ("label", some "My Label")]
       (by decide)).2
     { uri := some "http://example.org/Foo", label := "My Label" } (by decide)).2.1⟩

/-! ## C3: the header decision -/

theorem listContainsSub_iff (p : List Char) : ∀ l : List Char,
    listContainsSub p l = true ↔ p <:+: l := by
  intro l
  induction l with
  | nil =>
    simp [listContainsSub, List.isEmpty_iff, List.infix_nil]
  | cons c cs ih =>
    simp only [listContainsSub, Bool.or_eq_true, ih]
    rw [ List.isPrefixOf_iff_prefix]
    exact (List.infix_cons_iff).symm

theorem infix_dropWhile_of_no_ws (p : List Char) (hne : p ≠ [])
    (hws : ∀ c ∈ p, c.isWhitespace = false) :
    ∀ x : List Char, p <:+: x → p <:+: x.dropWhile Char.isWhitespace := by
  intro x
  induction x with
  | nil => intro h; simpa using h
  | cons c cs ih =>
    intro h
    by_cases hc : c.isWhitespace = true
    · rw [List.dropWhile_cons_of_pos hc]
      rcases List.infix_cons_iff.mp h with hpre | hinf
      · rcases hpre with ⟨t, ht⟩
        cases p with
        | nil => exact absurd rfl hne
        | cons a as =>
          injection ht with h1 _
          subst h1
          exact absurd hc (by simp [hws a (by simp)])
      · exact ih hinf
    · rw [List.dropWhile_cons_of_neg hc]
      exact h

theorem infix_trim_iff (p : List Char) (hne : p ≠ [])
    (hws : ∀ c ∈ p, c.isWhitespace = false) (x : List Char) :
    p <:+: trimCharList x ↔ p <:+: x := by
  constructor
  · intro h
    have htrim : trimCharList x <:+: x := by
      have h2 : (((x.dropWhile Char.isWhitespace).reverse.dropWhile
          Char.isWhitespace).reverse) <+: x.dropWhile Char.isWhitespace := by
        apply List.reverse_suffix.mp
        rw [List.reverse_reverse]
        exact List.dropWhile_suffix _
      rcases h2 with ⟨t, ht⟩
      have hpreinf : trimCharList x <:+: x.dropWhile Char.isWhitespace :=
        ⟨[], t, by simpa [trimCharList] using ht⟩
      exact hpreinf.trans (List.dropWhile_suffix _).isInfix
    exact h.trans htrim
  · intro h
    have h1 : p <:+: x.dropWhile Char.isWhitespace :=
      infix_dropWhile_of_no_ws p hne hws x h
    have h2 : p.reverse <:+: (x.dropWhile Char.isWhitespace).reverse :=
      List.reverse_infix.mpr h1
    have h3 : p.reverse <:+:
        (x.dropWhile Char.isWhitespace).reverse.dropWhile Char.isWhitespace := by
      apply infix_dropWhile_of_no_ws p.reverse
      · simpa using hne
      · intro c hcmem
        exact hws c (List.mem_reverse.mp hcmem)
      · exact h2
    have h4 : p.reverse <:+: (trimCharList x).reverse := by
      simpa [trimCharList] using h3
    exact List.reverse_infix.mp h4

theorem containsSub_pyStrip (s : String) :
    containsSub "://" (pyStrip s) = containsSub "://" s := by
  have hne : ("://".data : List Char) ≠ [] := by decide
  have hws : ∀ c ∈ ("://".data : List Char), c.isWhitespace = false := by decide
  rw [Bool.eq_iff_iff]
  show listContainsSub _ _ = true ↔ listContainsSub _ _ = true
  rw [listContainsSub_iff, listContainsSub_iff]
  exact infix_trim_iff _ hne hws s.data

theorem hasHeader_eq_not_contains (first : String) :
    hasHeader first = ! containsSub "://" first := by
  unfold hasHeader
  rw [containsSub_pyStrip]

/-- C3: for a non-empty filtered line sequence, the header decision is
exactly the test "does the first retained line contain `://`" (the strip
the code applies first cannot change that test), the parser dispatches on
that test alone, and prepending a comment or blank line leaves both the
filtered sequence and the parsed rows unchanged. -/
theorem c3_header_decision (raw : List String) (c first : String) (rest : List String)
    (hf : lineFilter raw = first :: rest)
    (hc : startsWithHashAfterLstrip c = true ∨ pyStrip c = "") :
    hasHeader first = ! containsSub "://" first ∧
    parse_csv_lines (first :: rest) =
      (if containsSub "://" first then noHeaderPath (first :: rest)
       else headerPath (first :: rest)) ∧
    lineFilter (c :: raw) = first :: rest ∧
    read_csv_rows (c :: raw) = read_csv_rows raw := by
  have hskip : skipLine c = true := by
    unfold skipLine
    rcases hc with h | h <;> simp [h]
  have hfilter : lineFilter (c :: raw) = lineFilter raw := by
    unfold lineFilter
    rw [List.filter_cons_of_neg (by simp [hskip])]
  refine ⟨hasHeader_eq_not_contains first, ?_, ?_, ?_⟩
  · show (if hasHeader first then headerPath (first :: rest)
      else noHeaderPath (first :: rest)) = _
    rw [hasHeader_eq_not_contains first]
    cases h : containsSub "://" first <;> simp
  · rw [hfilter, hf]
  · unfold read_csv_rows
    rw [hfilter]

/-- C3 witness at a concrete input: a data-looking line keeps its
no-header decision when a comment line is inserted before it. -/
theorem c3_witness :
    hasHeader "http://a,x" = ! containsSub "://" "http://a,x" ∧
    parse_csv_lines ["http://a,x"] =
      (if containsSub "://" "http://a,x" then noHeaderPath ["http://a,x"]
       else headerPath ["http://a,x"]) ∧
    lineFilter ["# note", "http://a,x"] = ["http://a,x"] ∧
    read_csv_rows ["# note", "http://a,x"] = read_csv_rows ["http://a,x"] :=
  c3_header_decision ["http://a,x"] "# note" "http://a,x" []
    (by decide) (Or.inl (by decide))

/-! ## C4: the no-header path -/

theorem skipLine_empty : skipLine "" = true := by decide

theorem lineFilter_mem_ne_empty (ls : List String) :
    ∀ l ∈ lineFilter ls, l ≠ "" := by
  intro l hl he
  have hmem := List.mem_filter.mp hl
  rw [he] at hmem
  simp [skipLine_empty] at hmem

theorem csvReader_eq_map (lines : List String) (h : ∀ l ∈ lines, l ≠ "") :
    csvReader lines = lines.map splitFields := by
  induction lines with
  | nil => rfl
  | cons a as ih =>
    have ha : a ≠ "" := h a (by simp)
    simp only [csvReader, List.filterMap_cons, if_neg ha, List.map_cons]
    exact congrArg _ (ih (fun l hl => h l (by simp [hl])))

/-- C4: in the no-header path, on the (non-empty) filtered line sequence
the Row Parser computes `max_len` as the maximum field count over all
parsed rows, synthesizes column names `col0 … col(max_len-1)`, pads every
row to `max_len` fields with empty strings and zips the names to the
padded values, producing exactly one RawRow per line in line order. -/
theorem c4_no_header_path (raw : List String) (first : String) (rest : List String)
    (hf : lineFilter raw = first :: rest)
    (hh : hasHeader first = false) :
    read_csv_rows raw =
      ((first :: rest).map splitFields).map (fun r =>
        dictOfPairs ((((List.range
              ((((first :: rest).map splitFields).map List.length).foldl Nat.max 0)).map
            (fun i => "col" ++ toString i)).zip
          (r ++ List.replicate
            (((((first :: rest).map splitFields).map List.length).foldl Nat.max 0)
              - r.length) "")).map
          (fun p => ((some p.1 : Option String), RVal.str p.2)))) ∧
    (read_csv_rows raw).length = (first :: rest).length := by
  have hne : ∀ l ∈ (first :: rest), l ≠ "" := by
    rw [← hf]; exact lineFilter_mem_ne_empty raw
  have hcr : csvReader (first :: rest) = (first :: rest).map splitFields :=
    csvReader_eq_map _ hne
  have hparse : read_csv_rows raw = noHeaderPath (first :: rest) := by
    unfold read_csv_rows
    rw [hf]
    show (if hasHeader first then headerPath (first :: rest)
      else noHeaderPath (first :: rest)) = _
    rw [hh]
    simp
  have hmain : read_csv_rows raw =
      ((first :: rest).map splitFields).map (fun r =>
        dictOfPairs ((((List.range
              ((((first :: rest).map splitFields).map List.length).foldl Nat.max 0)).map
            (fun i => "col" ++ toString i)).zip
          (r ++ List.replicate
            (((((first :: rest).map splitFields).map List.length).foldl Nat.max 0)
              - r.length) "")).map
          (fun p => ((some p.1 : Option String), RVal.str p.2)))) := by
    rw [hparse]
    unfold noHeaderPath
    rw [hcr]
    rw [if_neg (by simp)]
  exact ⟨hmain, by rw [hmain]; simp⟩

/-- C4 witness at a concrete input: two bare-URI lines parse to two rows
with synthesized columns `col0`, `col1`, the short row padded with `""`. -/
theorem c4_witness :
    read_csv_rows ["http://a/x,L", "http://b/y"] =
      [[(some "col0", RVal.str "http://a/x"), (some "col1", RVal.str "L")],
       [(some "col0", RVal.str "http://b/y"), (some "col1", RVal.str "")]] ∧
    (read_csv_rows ["http://a/x,L", "http://b/y"]).length =
      (["http://a/x,L", "http://b/y"] : List String).length :=
  ⟨by decide,
   (c4_no_header_path ["http://a/x,L", "http://b/y"] "http://a/x,L" ["http://b/y"]
     (by decide) (by decide)).2⟩

/-! ## C2: the header path -/

/-- The keys of a row, in order. -/
def rowKeys (r : Row) : List (Option String) := r.map Prod.fst

/-- Does a cell hold a string value that is already trimmed?  (The null
restval and the restkey list are not empty-string-padded trimmed values.) -/
def valueTrimmedStr : RVal → Bool
  | .str s => pyStrip s = s
  | _ => false

/-- Do two rows have the same key set? -/
def sameKeySet (a b : Row) : Bool :=
  (rowKeys a).all (fun k => (rowKeys b).contains k) &&
  (rowKeys b).all (fun k => (rowKeys a).contains k)

/-- The property asserted by the claim for a parsed table: every value is
a trimmed string (missing trailing fields padded with `""`), and all rows
have identical key sets. -/
def c2ClaimHolds (lines : List String) : Bool :=
  let rows := parse_csv_lines lines
  rows.all (fun r => r.all (fun p => valueTrimmedStr p.2)) &&
  (match rows with
   | [] => true
   | r0 :: rs => rs.all (fun r => sameKeySet r0 r))

/-- C2 counterexample: in the header path (`uri,label` has no `://`), the
parsed table of `["uri,label", "a, b", "c", "x,y,z"]` violates the claim:
the cell `" b"` is not trimmed, the short row `"c"` is padded with the
null restval rather than `""`, and the long row `"x,y,z"` gains a restkey
`none`, so the key sets differ. -/
theorem c2_counterexample :
    hasHeader "uri,label" = true ∧
    c2ClaimHolds ["uri,label", "a, b", "c", "x,y,z"] = false := by decide

theorem dictInsert_fresh {κ α : Type} [DecidableEq κ] (d : List (κ × α)) (k : κ) (v : α)
    (h : d.any (fun p => p.1 = k) = false) :
    dictInsert d k v = d ++ [(k, v)] := by
  simp [dictInsert, h]

theorem foldl_dictInsert_append {κ α : Type} [DecidableEq κ] :
    ∀ (ps : List (κ × α)) (d : List (κ × α)),
      (ps.map Prod.fst).Nodup →
      (∀ k ∈ ps.map Prod.fst, d.any (fun p => p.1 = k) = false) →
      ps.foldl (fun d p => dictInsert d p.1 p.2) d = d ++ ps
  | [], d, _, _ => by simp
  | p :: ps, d, hnd, hfresh => by
    rw [List.map_cons] at hnd
    have hnd' := List.nodup_cons.mp hnd
    have hp : dictInsert d p.1 p.2 = d ++ [p] := by
      rw [dictInsert_fresh d p.1 p.2 (hfresh p.1 (by simp))]
    have hfresh' : ∀ k ∈ ps.map Prod.fst,
        (d ++ [p]).any (fun q => q.1 = k) = false := by
      intro k hk
      rw [List.any_append]
      have h1 : d.any (fun q => q.1 = k) = false := hfresh k (by simp [hk])
      have h2 : ([p].any (fun q => q.1 = k)) = false := by
        have hpk : p.1 ≠ k := fun he => hnd'.1 (he ▸ hk)
        simp [hpk]
      simp [h1, h2]
    simp only [List.foldl_cons]
    rw [hp, foldl_dictInsert_append ps (d ++ [p]) hnd'.2 hfresh']
    simp

theorem dictOfPairs_self {κ α : Type} [DecidableEq κ] (ps : List (κ × α))
    (hnd : (ps.map Prod.fst).Nodup) : dictOfPairs ps = ps := by
  unfold dictOfPairs
  rw [foldl_dictInsert_append ps [] hnd (fun k _ => rfl)]
  simp

theorem map_fst_zip_eq_take {α β : Type} :
    ∀ (l₁ : List α) (l₂ : List β), (l₁.zip l₂).map Prod.fst = l₁.take l₂.length
  | [], l₂ => by simp
  | a :: as, [] => by simp
  | a :: as, b :: bs => by simp [map_fst_zip_eq_take as bs]

theorem zip_take_length {α β : Type} :
    ∀ (l₁ : List α) (l₂ : List β), l₁.zip l₂ = (l₁.take l₂.length).zip l₂
  | [], l₂ => by simp
  | a :: as, [] => by simp
  | a :: as, b :: bs => by
    simp only [List.length_cons, List.take_succ_cons, List.zip_cons_cons]
    rw [← zip_take_length as bs]

theorem zip_replicate_right {α β : Type} :
    ∀ (l : List α) (c : β), l.zip (List.replicate l.length c) = l.map (fun a => (a, c))
  | [], _ => rfl
  | a :: as, c => by
    simp only [List.length_cons, List.replicate_succ, List.zip_cons_cons, List.map_cons]
    rw [zip_replicate_right as c]

theorem foldl_dictInsert_null_eq (ks : List String) (d : Row) :
    ks.foldl (fun d k => dictInsert d (some k) RVal.null) d =
      (ks.map (fun k => ((some k : Option String), RVal.null))).foldl
        (fun d p => dictInsert d p.1 p.2) d := by
  induction ks generalizing d with
  | nil => rfl
  | cons k ks ih =>
    simp only [List.foldl_cons, List.map_cons]
    exact ih _

/-- Closed form of the `DictReader` row construction for a duplicate-free
header: cells pass through verbatim (no trimming), missing trailing fields
are filled with the null restval, extra cells go to the restkey `none`. -/
def dictReaderClosed (hdr : List String) (r : List String) : Row :=
  if hdr.length < r.length then
    (hdr.zip r).map (fun p => ((some p.1 : Option String), RVal.str p.2)) ++
      [(none, RVal.rest (r.drop hdr.length))]
  else
    (hdr.zip (r.map RVal.str ++ List.replicate (hdr.length - r.length) RVal.null)).map
      (fun p => ((some p.1 : Option String), p.2))

theorem dictRowOf_closed (hdr r : List String) (hnd : hdr.Nodup) :
    dictRowOf hdr r = dictReaderClosed hdr r := by
  have hkeys : ((hdr.zip r).map
        (fun p => ((some p.1 : Option String), RVal.str p.2))).map Prod.fst
      = (hdr.take r.length).map some := by
    rw [List.map_map]
    have h1 : ((hdr.zip r).map Prod.fst).map some = (hdr.take r.length).map some := by
      rw [map_fst_zip_eq_take]
    rw [List.map_map] at h1
    exact h1
  have htakeNodup : ((hdr.take r.length).map some).Nodup :=
    List.Nodup.map (Option.some_injective String)
      (List.Nodup.sublist (List.take_sublist _ _) hnd)
  have hZ : dictOfPairs ((hdr.zip r).map
        (fun p => ((some p.1 : Option String), RVal.str p.2))) =
      (hdr.zip r).map (fun p => ((some p.1 : Option String), RVal.str p.2)) :=
    dictOfPairs_self _ (by rw [hkeys]; exact htakeNodup)
  unfold dictRowOf
  dsimp only
  rw [hZ]
  by_cases hlt : hdr.length < r.length
  · rw [if_pos hlt]
    unfold dictReaderClosed
    rw [if_pos hlt]
    apply dictInsert_fresh
    rw [List.any_eq_false]
    intro x hx
    rcases List.mem_map.mp hx with ⟨q, _, rfl⟩
    simp
  · rw [if_neg hlt]
    unfold dictReaderClosed
    rw [if_neg hlt]
    have hle : r.length ≤ hdr.length := Nat.le_of_not_lt hlt
    have hnodupF : (((hdr.drop r.length).map
        (fun k => ((some k : Option String), RVal.null))).map Prod.fst).Nodup := by
      rw [List.map_map]
      exact List.Nodup.map (fun a b hab => by simpa using hab)
        (List.Nodup.sublist (List.drop_sublist _ _) hnd)
    have hfreshF : ∀ k ∈ (((hdr.drop r.length).map
        (fun k => ((some k : Option String), RVal.null))).map Prod.fst),
        (((hdr.zip r).map (fun p => ((some p.1 : Option String), RVal.str p.2))).any
          (fun p => p.1 = k)) = false := by
      intro k hk
      rw [List.map_map] at hk
      rcases List.mem_map.mp hk with ⟨k0, hk0, rfl⟩
      rw [List.any_eq_false]
      intro x hx
      rcases List.mem_map.mp hx with ⟨q, hq, rfl⟩
      simp only [decide_eq_true_eq, Function.comp]
      intro he
      have hq1 : q.1 = k0 := by
        have := (Option.some.injEq q.1 k0).mp he
        exact this
      have hq1mem : q.1 ∈ hdr.take r.length := by
        have hm : q.1 ∈ (hdr.zip r).map Prod.fst := List.mem_map_of_mem Prod.fst hq
        rwa [map_fst_zip_eq_take] at hm
      exact (List.disjoint_take_drop hnd (le_refl r.length)) hq1mem (hq1 ▸ hk0)
    have hdlen : hdr.length - r.length = (hdr.drop r.length).length := by
      rw [List.length_drop]
    have hsplit : ∀ (t d : List String), t.length = r.length →
        ((t ++ d).zip (r.map RVal.str ++ List.replicate d.length RVal.null)).map
          (fun p => ((some p.1 : Option String), p.2)) =
        ((t ++ d).zip r).map (fun p => ((some p.1 : Option String), RVal.str p.2)) ++
          d.map (fun k => ((some k : Option String), RVal.null)) := by
      intro t d ht
      rw [List.zip_append (by rw [ht, List.length_map]), List.map_append]
      congr 1
      · rw [List.zip_map_right, List.map_map]
        conv_rhs => rw [zip_take_length (t ++ d) r, ← ht, List.take_left]
        rfl
      · rw [zip_replicate_right, List.map_map]
        rfl
    have hrhs : (hdr.zip (r.map RVal.str ++
          List.replicate (hdr.length - r.length) RVal.null)).map
        (fun p => ((some p.1 : Option String), p.2)) =
        (hdr.zip r).map (fun p => ((some p.1 : Option String), RVal.str p.2)) ++
        (hdr.drop r.length).map (fun k => ((some k : Option String), RVal.null)) := by
      have h0 := hsplit (hdr.take r.length) (hdr.drop r.length)
        (by rw [List.length_take]; exact Nat.min_eq_left hle)
      rw [List.take_append_drop] at h0
      rw [← hdlen] at h0
      exact h0
    rw [foldl_dictInsert_null_eq, foldl_dictInsert_append
      ((hdr.drop r.length).map (fun k => ((some k : Option String), RVal.null))) _
      hnodupF hfreshF, hrhs]

/-- C2 amended: in the header path (with a duplicate-free header), each
data line yields one row zipping the header names to the parsed cells
VERBATIM (no trimming), filling missing trailing fields with the null
restval (not `""`), and sending extra cells to a restkey `none` — so key
sets agree exactly for rows not exceeding the header's field count. -/
theorem c2_header_path_amended (raw : List String) (first : String) (rest : List String)
    (hf : lineFilter raw = first :: rest)
    (hh : hasHeader first = true)
    (hnd : (splitFields first).Nodup) :
    read_csv_rows raw =
      rest.map (fun l => dictReaderClosed (splitFields first) (splitFields l)) := by
  have hne : ∀ l ∈ (first :: rest), l ≠ "" := by
    rw [← hf]; exact lineFilter_mem_ne_empty raw
  have hcr : csvReader (first :: rest) = (first :: rest).map splitFields :=
    csvReader_eq_map _ hne
  unfold read_csv_rows
  rw [hf]
  show (if hasHeader first then headerPath (first :: rest)
    else noHeaderPath (first :: rest)) = _
  rw [hh, if_pos rfl]
  unfold headerPath
  rw [hcr]
  show (rest.map splitFields).map (dictRowOf (splitFields first)) = _
  rw [List.map_map]
  have hfun : (dictRowOf (splitFields first) ∘ splitFields) =
      fun l => dictReaderClosed (splitFields first) (splitFields l) :=
    funext fun l => dictRowOf_closed _ _ hnd
  rw [hfun]

/-- C2 amended witness: the counterexample table in closed form — the
cell `" b"` kept verbatim, null padding on the short row, a restkey entry
on the long row. -/
theorem c2_amended_witness :
    read_csv_rows ["uri,label", "a, b", "c", "x,y,z"] =
      [[(some "uri", RVal.str "a"), (some "label", RVal.str " b")],
       [(some "uri", RVal.str "c"), (some "label", RVal.null)],
       [(some "uri", RVal.str "x"), (some "label", RVal.str "y"),
        (none, RVal.rest ["z"])]] := by
  have h := c2_header_path_amended ["uri,label", "a, b", "c", "x,y,z"] "uri,label"
    ["a, b", "c", "x,y,z"] (by decide) (by decide) (by decide)
  rw [h]
  decide

/-! ## C8: the count field -/

theorem filterMap_length_eq_filter_isSome {α β : Type} (f : α → Option β) :
    ∀ l : List α, (l.filterMap f).length = (l.filter (fun a => (f a).isSome)).length
  | [] => rfl
  | a :: as => by
    cases hfa : f a <;>
      simp [List.filterMap_cons, List.filter_cons, hfa,
        filterMap_length_eq_filter_isSome f as]

/-- C8: whenever `convert_vocab` writes an output document, its `count`
metadata field equals the number of entries serialized (both formats
serialize the `entries` collection elementwise), which is the number of
parsed rows whose normalization produced an entry, and is also the
returned value. -/
theorem c8_count_matches (name source_desc : String) (raw : List String) (fmt : String)
    (rows : List (List (String × Option String))) (n : Nat) (doc : OutputDoc)
    (hr : (read_csv_rows raw).mapM rowClean = some rows)
    (h : convert_vocab name source_desc (.ok raw) fmt = some (n, some doc)) :
    doc.count = doc.entries.length ∧
    doc.count = (rows.filter (fun r => (normalize_vocab_entry name r).isSome)).length ∧
    n = doc.count := by
  unfold convert_vocab at h
  cases hv : pyDictGet VOCABS name with
  | none => rw [hv] at h; exact absurd h (by simp)
  | some vtype =>
    rw [hv] at h
    dsimp only at h
    rw [hr] at h
    dsimp only at h
    simp only [Option.some.injEq, Prod.mk.injEq] at h
    obtain ⟨hn, hdoc⟩ := h
    subst hdoc
    subst hn
    refine ⟨rfl, ?_, rfl⟩
    exact filterMap_length_eq_filter_isSome _ rows

/-- C8 witness: converting the licenses table `["code", "MIT"]` writes a
document whose count 1 equals its one serialized entry. -/
theorem c8_witness :
    ({ source := "s", format := "jsonl", vocabType := "licenses", name := "licenses",
       count := 1, entries := [{ code := some "MIT", label := "MIT" }] } : OutputDoc).count =
      ({ source := "s", format := "jsonl", vocabType := "licenses", name := "licenses",
         count := 1, entries := [{ code := some "MIT", label := "MIT" }] } : OutputDoc).entries.length ∧
    ({ source := "s", format := "jsonl", vocabType := "licenses", name := "licenses",
       count := 1, entries := [{ code := some "MIT", label := "MIT" }] } : OutputDoc).count =
      (([[("code", some "MIT")]] : List (List (String × Option String))).filter
        (fun r => (normalize_vocab_entry "licenses" r).isSome)).length ∧
    1 = ({ source := "s", format := "jsonl", vocabType := "licenses", name := "licenses",
           count := 1, entries := [{ code := some "MIT", label := "MIT" }] } : OutputDoc).count :=
  c8_count_matches "licenses" "s" ["code", "MIT"] "jsonl" [[("code", some "MIT")]] 1
    { source := "s", format := "jsonl", vocabType := "licenses", name := "licenses",
      count := 1, entries := [{ code := some "MIT", label := "MIT" }] }
    (by decide) (by decide)

/-! ## C9: empty or fully-commented sources -/

/-- C9: an empty or fully comment/blank CSV source is not an error: the
Row Parser yields no rows, and `convert_vocab` writes a valid envelope
with count 0 and an empty entries collection, returning 0. -/
theorem c9_empty_source (name source_desc vtype : String) (raw : List String) (fmt : String)
    (hv : pyDictGet VOCABS name = some vtype)
    (hskip : ∀ l ∈ raw, skipLine l = true) :
    read_csv_rows raw = [] ∧
    convert_vocab name source_desc (.ok raw) fmt =
      some (0, some { source := source_desc, format := fmt, vocabType := vtype,
                      name := name, count := 0, entries := [] }) := by
  have hfilter : lineFilter raw = [] := by
    unfold lineFilter
    apply List.filter_eq_nil_iff.mpr
    intro a ha
    simp [hskip a ha]
  have hrows : read_csv_rows raw = [] := by
    unfold read_csv_rows
    rw [hfilter]
    rfl
  refine ⟨hrows, ?_⟩
  unfold convert_vocab
  rw [hv]
  dsimp only
  rw [hrows]
  rfl

/-- C9 witness: a comments-and-blanks-only source yields the count-0
envelope for `file_types`, with no error. -/
theorem c9_witness :
    read_csv_rows ["# only a comment", "   "] = [] ∧
    convert_vocab "file_types" "docs/vocabularies/file_types.csv"
      (.ok ["# only a comment", "   "]) "json" =
      some (0, some { source := "docs/vocabularies/file_types.csv", format := "json",
                      vocabType := "uri_label", name := "file_types",
                      count := 0, entries := [] }) :=
  c9_empty_source "file_types" "docs/vocabularies/file_types.csv" "uri_label"
    ["# only a comment", "   "] "json" (by decide) (by decide)

/-! ## C10: source-read failure -/

/-- C10: when the source-reading step fails (the `RuntimeError` path of
`convert_vocab`'s `try` block), the function returns 0 immediately and no
output document is written — unlike the empty-source case, where a
count-0 envelope is written. -/
theorem c10_fetch_failure (name source_desc vtype fmt : String)
    (hv : pyDictGet VOCABS name = some vtype) :
    convert_vocab name source_desc .err fmt = some (0, none) := by
  unfold convert_vocab
  rw [hv]

/-- C10 witness: a failed fetch for `media_types` returns 0 with nothing
written. -/
theorem c10_witness :
    convert_vocab "media_types" "http://raw/media_types.csv" .err "jsonl" =
      some (0, none) :=
  c10_fetch_failure "media_types" "http://raw/media_types.csv" "uri_label" "jsonl"
    (by decide)

end VocabsCsv
